import Mathlib

/-!
Shallow embedding of the email-existence-probing scripts of this repository
(`colgate_validator.py` — Microsoft first-step validator, `email_validator.py`
— Google validator, `pepperdine/pepp_directory_validator.py` — Pepperdine
forgot-password validator), together with theorems settling the frozen claims
about them.

Page states observed through the browser are modelled as explicit structures
(which selector groups match, the texts of the matched elements, the current
URL, the page source); the classification logic of each script is translated
function by function.  Python `pat in s` (substring test) is modelled by
`strContains`, `.strip()` by `pyStrip`, `.lower()` by `pyLower`.
The per-run main loops are modelled as folds over the list of input CSV rows,
with the existence-probe itself abstracted by an oracle `String → Option Bool`
(the Python probe functions return `True` / `False` / `None`, modelled as
`some true` / `some false` / `none`).
-/

/-- Substring test on `List Char`: does `pat` occur contiguously in the list? -/
def containsSub (pat : List Char) : List Char → Bool
  | [] => pat.isEmpty
  | c :: tl => pat.isPrefixOf (c :: tl) || containsSub pat tl

/-- Model of Python `pat in s` for strings (substring containment). -/
def strContains (s pat : String) : Bool := containsSub pat.data s.data

/-- Whitespace characters stripped by Python's `str.strip()`. -/
def isSpaceChar (c : Char) : Bool :=
  c = ' ' || c = '\t' || c = '\n' || c = '\x0d' || c = '\x0b' || c = '\x0c'

/-- Drop leading whitespace from a character list. -/
def dropSpace : List Char → List Char
  | [] => []
  | c :: tl => if isSpaceChar c then dropSpace tl else c :: tl

/-- Model of Python `s.strip()`: remove leading and trailing whitespace.
(Implemented by structural recursion so that concrete runs evaluate in the
kernel; core `String.trim` is definitionally opaque.) -/
def pyStrip (s : String) : String :=
  ⟨(dropSpace (dropSpace s.data.reverse).reverse)⟩

/-- ASCII lower-casing of one character (the case arising in this code: all
compared literals are ASCII). -/
def lowerChar (c : Char) : Char :=
  if 'A' ≤ c && c ≤ 'Z' then Char.ofNat (c.toNat + 32) else c

/-- Model of Python `s.lower()` (ASCII range). -/
def pyLower (s : String) : String := ⟨s.data.map lowerChar⟩

namespace Colgate

/-!
## `colgate_validator.py` — Microsoft login first-step validator

Post-submission page state, as observed by the element probes of the script:
`pw_visible` is whether a displayed element with id `i0118` exists
(`at_password_step`), `login_headers` the texts of `#loginHeader` elements,
`err_texts` the stripped texts of the displayed candidates of the selector
chain `#usernameError`, `div[role='alert']`, `.text-danger, .error, .alert`,
in document/selector order (`find_username_error_text`).
-/

structure MsPage where
  pw_visible : Bool
  login_headers : List String
  err_texts : List String
  deriving DecidableEq

/-- `find_username_error_text`: first non-empty stripped displayed error text,
else `""`. -/
def find_username_error_text (p : MsPage) : String :=
  ((p.err_texts.map pyStrip).find? (fun t => t != "")).getD ""

/-- `at_password_step`: a displayed `#i0118` password input; the `#loginHeader`
check in the source is a no-op (both branches return `True`), translated
literally here. -/
def at_password_step (p : MsPage) : Bool :=
  if p.pw_visible then
    if p.login_headers.any (fun h => strContains (pyLower h) "password") then true
    else true
  else false

/-- The `invalid_hints` list of `enter_email_and_submit`. -/
def invalid_hints : List String :=
  ["this username may be incorrect",
   "we couldn\x27t find an account",
   "enter a valid email address",
   "that microsoft account doesn\x27t exist",
   "couldn\x27t find your account",
   "no account found"]

/-- Lines 160–176 of `enter_email_and_submit`: classification of the
post-submission page state.  Error hints are checked first, then the
password step; otherwise the verdict stays `None` (ambiguous). -/
def classify_after_submit (p : MsPage) : Option Bool :=
  let err_text := pyLower (find_username_error_text p)
  if invalid_hints.any (fun h => strContains err_text h) then some false
  else if at_password_step p then some true
  else none

/-- Exceptions that the selenium calls of the probe can raise. -/
inductive Exc where
  | timeout : Exc
  | webdriver : Exc
  deriving DecidableEq

/-- One full probe of `enter_email_and_submit`, with the behaviour of each
fallible step made explicit: `start_at_username` is `at_username_step(driver)`
on entry (it swallows its own exceptions), `recover_ok` whether the 8-second
wait after `go_back_to_username` sees the username step, `input_found` whether
the selector chain yields a clickable displayed email input (each per-selector
timeout is caught), `clear_res`/`type_res`/`enter_res` the outcome of
`email_input.clear()`, `type_like_human` and `send_keys(Keys.RETURN)`
(`none` = returned normally, `some e` = raised `e`), and `page` the page state
after the 10-second wait for a password step or error text (whose
`TimeoutException` is caught and ignored). -/
structure MsProbe where
  start_at_username : Bool
  recover_ok : Bool
  input_found : Bool
  clear_res : Option Exc
  type_res : Option Exc
  enter_res : Option Exc
  page : MsPage
  deriving DecidableEq

/-- The first exception raised inside the `try` block that wraps the field
interaction (clear, per-character typing, RETURN keystroke). -/
def interaction_raises (pr : MsProbe) : Option Exc :=
  ([pr.clear_res, pr.type_res, pr.enter_res].filterMap id).head?

/-- `enter_email_and_submit` with its exception flow: the `try` around the
field interaction catches `TimeoutException` only (→ verdict `None`); any
other exception propagates out of the probe. -/
def enter_email_and_submit (pr : MsProbe) : Except Exc (Option Bool) :=
  if !pr.start_at_username && !pr.recover_ok then Except.ok none
  else if !pr.input_found then Except.ok none
  else
    match interaction_raises pr with
    | some Exc.timeout => Except.ok none
    | some e => Except.error e
    | none => Except.ok (classify_after_submit pr.page)

/-- An input/output CSV row of the Microsoft and Pepperdine validators. -/
structure MsRow where
  full_name : String
  email : String
  deriving DecidableEq

/-- Mutable state of `main`'s loop: `seen` and `valid` are the dedup sets
(both keyed by `email.strip().lower()`), `written` the data rows appended to
the output this run, `probes` the rows actually passed to
`enter_email_and_submit`. -/
structure MsState where
  seen : List String
  valid : List String
  written : List MsRow
  probes : List MsRow
  deriving DecidableEq

/-- Dedup key of the Microsoft validator: trimmed, lower-cased email. -/
def msKey (r : MsRow) : String := pyLower (pyStrip r.email)

/-- Initial state: `valid_emails` is seeded from the existing output file
(`email.strip().lower()`, empty strings skipped); `seen_emails` starts empty. -/
def msInit (prior : List MsRow) : MsState :=
  { seen := []
    valid := (prior.map msKey).filter (fun e => e != "")
    written := []
    probes := [] }

/-- One iteration of `main`'s loop: skip blank emails and emails whose
lower-cased form is in `seen`/`valid`; otherwise add to `seen`, probe, and on
a `True` verdict append to the output and to `valid`. -/
def ms_step (oracle : String → Option Bool) (s : MsState) (row : MsRow) : MsState :=
  let email := pyStrip row.email
  if email = "" then s
  else if pyLower email ∈ s.seen ∨ pyLower email ∈ s.valid then s
  else
    let s1 : MsState := { s with seen := pyLower email :: s.seen, probes := s.probes ++ [row] }
    match oracle email with
    | some true => { s1 with written := s1.written ++ [row], valid := pyLower email :: s1.valid }
    | _ => s1

/-- The whole run over the input rows. -/
def msRunFrom (oracle : String → Option Bool) (s : MsState) (rows : List MsRow) : MsState :=
  rows.foldl (ms_step oracle) s

/-- A run resumed against the data rows `prior` already in the output file. -/
def msRun (oracle : String → Option Bool) (prior rows : List MsRow) : MsState :=
  msRunFrom oracle (msInit prior) rows

/-- Output CSV header of the Microsoft and Pepperdine validators. -/
def hdr2 : List String := ["full_name", "email"]

/-- `write_valid`: open the output in append mode; write the header iff
`out.tell() == 0` (the file is empty); append the candidate row.  The file is
modelled as the list of its physical CSV rows. -/
def write_valid (out : List (List String)) (row : MsRow) : List (List String) :=
  out ++ (if out = [] then [hdr2] else []) ++ [[row.full_name, row.email]]

end Colgate

namespace GoogleV

/-!
## `email_validator.py` — Google sign-in flow validator

Page state as observed by the script: `url` is `driver.current_url`,
`page_source` is `driver.page_source`, `o6cu_texts` the texts of the
`div.o6cuMc` error elements, `aria_live_text` the text of the
`div[aria-live='assertive']` element (`none` when `find_element` raises
`NoSuchElementException`), `pwd_input_present` whether an
`input[type='password'], input[name='Passwd']` element exists.
-/

structure GPage where
  url : String
  page_source : String
  o6cu_texts : List String
  aria_live_text : Option String
  pwd_input_present : Bool
  deriving DecidableEq

/-- `detect_invalid_by_message`: known "couldn't find the account" signals in
the page source, the `div.o6cuMc` elements, or the assertive live region. -/
def detect_invalid_by_message (p : GPage) : Bool :=
  strContains p.page_source "Couldn\x27t find your Google Account"
  || strContains p.page_source "Enter a valid email"
  || strContains p.page_source "Enter an email or phone number"
  || p.o6cu_texts.any (fun t => strContains t "Couldn\x27t find")
  || (match p.aria_live_text with
      | some t => t != ""
          && (strContains t "Couldn\x27t find" || strContains t "Enter a valid")
      | none => false)

/-- `is_saml_flow`: cross-domain / federated redirect detection on the URL. -/
def is_saml_flow (p : GPage) : Bool :=
  strContains p.url "/saml2/" || strContains p.url "/o/saml2/"
  || strContains p.url "/samlredirect" || strContains p.url "/sso/"

/-- URL fragments that `at_password_step` treats as the password challenge. -/
def password_url_hints : List String :=
  ["/v2/challenge/password",
   "/signin/v2/challenge/pwd",
   "/v3/signin/challenge/pwd",
   "/signin/challenge/pwd",
   "/challenge/password"]

/-- `at_password_step`: password-challenge URL, or a password input present. -/
def at_password_step (p : GPage) : Bool :=
  password_url_hints.any (fun k => strContains p.url k) || p.pwd_input_present

/-- Outcome of the wrong-password sub-probe of
`submit_wrong_password_and_check`: either the password input could not be
located/clicked within the timeout (`TimeoutException` → verdict `None`), or
the deliberately wrong password was submitted and `landed` is the page state
after the 8-second wait for a signal. -/
inductive PwOutcome where
  | timeout : PwOutcome
  | landed : GPage → PwOutcome
  deriving DecidableEq

/-- The "wrong password / try again"-type signals accepted as confirmation
after submitting the deliberately wrong password. -/
def wrong_password_hint (p : GPage) : Bool :=
  strContains p.page_source "Wrong password"
  || strContains p.page_source "Enter your password"
  || strContains p.page_source "Try again"

/-- `submit_wrong_password_and_check`: verdict after submitting a wrong
password — `True` on a wrong-password signal, `False` on an account-not-found
signal, `None` otherwise (including the locate timeout). -/
def submit_wrong_password_and_check : PwOutcome → Option Bool
  | PwOutcome.timeout => none
  | PwOutcome.landed p =>
    if wrong_password_hint p then some true
    else if detect_invalid_by_message p then some false
    else none

/-- One probe of `validate_email_google`: `nav_ok` is whether `driver.get`
returned (a `WebDriverException` there yields `None`), `input_found` whether
`find_identifier_input` found the identifier input before the timeout, `p1`
the page state at the first round of checks (~1.5 s after submission), `p2`
the page state after the additional 8-second wait, and `pw_outcome` the
behaviour of the wrong-password sub-probe when the password step is reached.
The identifier-entry interaction (scroll, click, clear, send_keys) is
abstracted into `input_found`; its exception flow is modelled once, on the
Microsoft probe (`Colgate.MsProbe`), which has the same `try/except
TimeoutException` shape. -/
structure GProbe where
  nav_ok : Bool
  input_found : Bool
  p1 : GPage
  p2 : GPage
  pw_outcome : PwOutcome
  deriving DecidableEq

/-- `validate_email_google`: the classification cascade — SAML redirect →
`None`; known invalid message → `False`; password step → wrong-password
sub-probe; after the extra wait the same checks again; otherwise `None`. -/
def validate_email_google (pr : GProbe) : Option Bool :=
  if !pr.nav_ok then none
  else if !pr.input_found then none
  else if is_saml_flow pr.p1 then none
  else if detect_invalid_by_message pr.p1 then some false
  else if at_password_step pr.p1 then submit_wrong_password_and_check pr.pw_outcome
  else if is_saml_flow pr.p2 then none
  else if detect_invalid_by_message pr.p2 then some false
  else if at_password_step pr.p2 then submit_wrong_password_and_check pr.pw_outcome
  else none

/-- An input/output CSV row of the Google validator. -/
structure GRow where
  full_name : String
  username : String
  email : String
  deriving DecidableEq

/-- `normalize_person_key`: `unidecode` (modelled by the parameter `ud`) is
applied to the full name only; both parts are stripped and lower-cased.  The
username is NOT unidecoded. -/
def normalize_person_key (ud : String → String) (full_name username : String) :
    String × String :=
  (pyLower (pyStrip (ud full_name)), pyLower (pyStrip username))

/-- Modelled from the spec: the claim's person key, "normalized name+username
key (unidecoded, trimmed, lower-cased)" — i.e. with `unidecode` applied to
both parts.  Used only to compare the spec's wording with
`normalize_person_key`. -/
def claim_person_key (ud : String → String) (full_name username : String) :
    String × String :=
  (pyLower (pyStrip (ud full_name)), pyLower (pyStrip (ud username)))

/-- The person key of a row. -/
def npkRow (ud : String → String) (r : GRow) : String × String :=
  normalize_person_key ud r.full_name r.username

/-- Dedup key of the Google validator: the trimmed (NOT lower-cased) email. -/
def gKey (r : GRow) : String := pyStrip r.email

/-- Mutable state of `main`'s loop: the `seen_emails`, `valid_emails` and
`assigned_people` dedup sets, the data rows appended to the output this run
(`written`), the rows actually probed (`probes`), and `total_checked`. -/
structure GState where
  seen : List String
  valid : List String
  assigned : List (String × String)
  written : List GRow
  probes : List GRow
  checked : Nat
  deriving DecidableEq

/-- Initial state: `valid_emails` and `assigned_people` are seeded from the
data rows already in the output file; emails are stripped but not
lower-cased. -/
def gInit (ud : String → String) (prior : List GRow) : GState :=
  { seen := []
    valid := prior.map gKey
    assigned := prior.map (npkRow ud)
    written := []
    probes := []
    checked := 0 }

/-- One iteration of `main`'s loop: skip blank emails, emails in
`seen`/`valid` (exact, case-sensitive comparison), and rows whose person key
is already assigned; otherwise add to `seen`, probe, count, and on a `True`
verdict append the row to the output and assign the person key. -/
def g_step (ud : String → String) (oracle : String → Option Bool)
    (s : GState) (row : GRow) : GState :=
  let email := pyStrip row.email
  let pk := normalize_person_key ud row.full_name row.username
  if email = "" ∨ email ∈ s.seen ∨ email ∈ s.valid then s
  else if pk ∈ s.assigned then s
  else
    let s1 : GState :=
      { s with seen := email :: s.seen, probes := s.probes ++ [row],
               checked := s.checked + 1 }
    match oracle email with
    | some true => { s1 with written := s1.written ++ [row], assigned := pk :: s1.assigned }
    | _ => s1

/-- The run continued from a state. -/
def gRunFrom (ud : String → String) (oracle : String → Option Bool)
    (s : GState) (rows : List GRow) : GState :=
  rows.foldl (g_step ud oracle) s

/-- A run resumed against the data rows `prior` already in the output file. -/
def gRun (ud : String → String) (oracle : String → Option Bool)
    (prior rows : List GRow) : GState :=
  gRunFrom ud oracle (gInit ud prior) rows

/-- Output CSV header of the Google validator. -/
def hdr3 : List String := ["full_name", "username", "email"]

/-- `write_valid`: append mode; header iff `out.tell() == 0`; one data row. -/
def write_valid (out : List (List String)) (row : GRow) : List (List String) :=
  out ++ (if out = [] then [hdr3] else []) ++ [[row.full_name, row.username, row.email]]

/-- The session-restart guard of `main`'s loop:
`if args.restart_n and (total_checked % args.restart_n == 0)`. -/
def restart_due (restart_n total_checked : Nat) : Bool :=
  restart_n != 0 && total_checked % restart_n == 0

/-- The restart block of `main`'s loop: `driver.quit()` failures are ignored
(`try/except pass`), then after a fixed 2-second sleep `make_driver` is called
exactly once — its result is the head of `spawn_attempts`; a failed relaunch
is immediately fatal (`Except.error`).  The returned number is how many spawn
attempts were consumed. -/
def restart_block (quit_ok : Bool) (spawn_attempts : List Bool) : Except Unit Nat :=
  match quit_ok, spawn_attempts with
  | _, [] => Except.error ()
  | _, ok :: _ => if ok then Except.ok 1 else Except.error ()

/-- Modelled from the spec: "restart failures are retried once after a fixed
delay, else fatal" — a relaunch failure is followed by one retry before
becoming fatal.  Used only to compare the spec's wording with
`restart_block`. -/
def restart_block_spec (quit_ok : Bool) (spawn_attempts : List Bool) : Except Unit Nat :=
  match quit_ok, spawn_attempts with
  | _, [] => Except.error ()
  | _, ok :: rest =>
    if ok then Except.ok 1
    else
      match rest with
      | [] => Except.error ()
      | ok2 :: _ => if ok2 then Except.ok 2 else Except.error ()

end GoogleV

namespace Pepp

/-!
## `pepperdine/pepp_directory_validator.py` — forgot-password validator

Only the main loop is needed by the claims: its verdict function
`submit_username_for_reset` is abstracted by the oracle.  Unlike the other
two validators this script never reads the existing output file: `seen_emails`
and `valid_emails` both start empty on every run.
-/

/-- Mutable state of `main`'s loop. -/
structure PState where
  seen : List String
  valid : List String
  written : List Colgate.MsRow
  probes : List Colgate.MsRow
  processed : Nat
  deriving DecidableEq

/-- Dedup key of the Pepperdine validator: the trimmed (NOT lower-cased)
email. -/
def pKey (r : Colgate.MsRow) : String := pyStrip r.email

/-- Initial state: nothing is loaded from the output file. -/
def pInit : PState :=
  { seen := [], valid := [], written := [], probes := [], processed := 0 }

/-- One iteration of `main`'s loop: once `limit` (when non-zero) is reached
the loop breaks (modelled by skipping, since `processed` never decreases);
blank emails and emails in `seen` are skipped; otherwise the email is probed
and on a `True` verdict the row is appended. -/
def p_step (oracle : String → Option Bool) (limit : Nat)
    (s : PState) (row : Colgate.MsRow) : PState :=
  if limit ≠ 0 ∧ limit ≤ s.processed then s
  else
    let email := pyStrip row.email
    if email = "" ∨ email ∈ s.seen then s
    else
      let s1 : PState := { s with seen := email :: s.seen, probes := s.probes ++ [row] }
      match oracle email with
      | some true =>
          { s1 with written := s1.written ++ [row], valid := email :: s1.valid,
                    processed := s1.processed + 1 }
      | _ => { s1 with processed := s1.processed + 1 }

/-- A full run (the output file is never consulted). -/
def pRun (oracle : String → Option Bool) (limit : Nat)
    (rows : List Colgate.MsRow) : PState :=
  rows.foldl (p_step oracle limit) pInit

/-- `write_valid`: identical shape to the Microsoft one. -/
def write_valid (out : List (List String)) (row : Colgate.MsRow) : List (List String) :=
  out ++ (if out = [] then [Colgate.hdr2] else []) ++ [[row.full_name, row.email]]

end Pepp

/-!
## Concrete fixtures

Concrete page states, probes, rows and oracles used by the witness and
counterexample theorems below.
-/

/-- Oracle confirming every probed email. -/
def oracleTrue : String → Option Bool := fun _ => some true

/-- Oracle answering `None` (ambiguous) for every probed email. -/
def oracleNone : String → Option Bool := fun _ => none

/-- Oracle answering `False` (invalid) for every probed email. -/
def oracleFalse : String → Option Bool := fun _ => some false

/-- A concrete transliteration with `unidecode`'s behaviour on `é`. -/
def udAcute : String → String :=
  fun s => ⟨s.data.map (fun c => if c = 'é' then 'e' else c)⟩

/-- Page state with no password step, no error element, no special URL. -/
def msPageBlank : Colgate.MsPage := ⟨false, [], []⟩

/-- Page state at the Microsoft password step, no error text. -/
def msPagePw : Colgate.MsPage := ⟨true, ["Enter password"], []⟩

/-- Page state showing a known Microsoft account-not-found error. -/
def msPageErr : Colgate.MsPage :=
  ⟨false, [], ["That Microsoft account doesn\x27t exist. Enter a different account or get a new one."]⟩

/-- Error message and a visible password input at the same time. -/
def msPageErrPw : Colgate.MsPage :=
  ⟨true, [], ["That Microsoft account doesn\x27t exist. Enter a different account or get a new one."]⟩

/-- Google identifier page with no signal at all. -/
def gPageBlank : GoogleV.GPage :=
  ⟨"https://accounts.google.com/signin/v2/identifier", "Sign in", [], none, false⟩

/-- Google page showing the account-not-found message. -/
def gPageInvalid : GoogleV.GPage :=
  ⟨"https://accounts.google.com/signin/v2/identifier",
   "Couldn\x27t find your Google Account", [], none, false⟩

/-- Account-not-found message and a password input at the same time. -/
def gPageInvalidPw : GoogleV.GPage :=
  ⟨"https://accounts.google.com/signin/v2/identifier",
   "Couldn\x27t find your Google Account", [], none, true⟩

/-- Google password-challenge page. -/
def gPagePw : GoogleV.GPage :=
  ⟨"https://accounts.google.com/v3/signin/challenge/pwd", "Enter your password", [], none, true⟩

/-- Page after submitting the wrong password: the wrong-password signal. -/
def gPageWrongPw : GoogleV.GPage :=
  ⟨"https://accounts.google.com/v3/signin/challenge/pwd",
   "Wrong password. Try again or click Forgot password", [], none, true⟩

/-- Probe where neither a password step nor an error appears (both rounds). -/
def gProbeAmbig : GoogleV.GProbe :=
  ⟨true, true, gPageBlank, gPageBlank, GoogleV.PwOutcome.timeout⟩

/-- Probe whose first round already shows the invalid message. -/
def gProbeInvalid : GoogleV.GProbe :=
  ⟨true, true, gPageInvalid, gPageInvalid, GoogleV.PwOutcome.timeout⟩

/-- Probe showing the invalid message and a password input at once. -/
def gProbeInvalidPw : GoogleV.GProbe :=
  ⟨true, true, gPageInvalidPw, gPageInvalidPw, GoogleV.PwOutcome.timeout⟩

/-- Probe reaching the password step, then seeing the wrong-password signal. -/
def gProbeValid : GoogleV.GProbe :=
  ⟨true, true, gPagePw, gPagePw, GoogleV.PwOutcome.landed gPageWrongPw⟩

/-- Probe reaching the password step whose wrong-password sub-probe lands on a
page with no signal at all. -/
def gProbePwNoSignal : GoogleV.GProbe :=
  ⟨true, true, gPagePw, gPagePw, GoogleV.PwOutcome.landed gPageBlank⟩

/-- Microsoft probe in which the per-character typing raises a
non-timeout `WebDriverException`. -/
def msProbeRaises : Colgate.MsProbe :=
  ⟨true, true, true, none, some Colgate.Exc.webdriver, none, msPageBlank⟩

/-- Microsoft probe in which `clear()` times out (and nothing else raises). -/
def msProbeTimeout : Colgate.MsProbe :=
  ⟨true, true, true, some Colgate.Exc.timeout, none, none, msPageBlank⟩

/-- Two Google candidates whose emails differ only in case. -/
def gRowUpper : GoogleV.GRow := ⟨"P One", "u1", "JD@x.edu"⟩

/-- See `gRowUpper`. -/
def gRowLower : GoogleV.GRow := ⟨"P Two", "u2", "jd@x.edu"⟩

/-- A Pepperdine candidate row, assumed already present in the output file. -/
def pRowAnn : Colgate.MsRow := ⟨"Ann", "a@x.edu"⟩

/-- A Google data row already present in the output file before a resumed
run. -/
def gRowOld : GoogleV.GRow := ⟨"Old Person", "u0", "old@x.edu"⟩

/-- A Microsoft data row already present in the output file before a resumed
run. -/
def msRowOld : Colgate.MsRow := ⟨"Old Person", "old@x.edu"⟩

/-- A fresh Microsoft candidate row. -/
def msRowNew : Colgate.MsRow := ⟨"New Person", "new@x.edu"⟩

/-- Two candidates for the same person whose usernames differ only by a
diacritic, so that `unidecode` identifies them. -/
def gRowJose1 : GoogleV.GRow := ⟨"Ann Lee", "José", "a@x.edu"⟩

/-- See `gRowJose1`. -/
def gRowJose2 : GoogleV.GRow := ⟨"Ann Lee", "Jose", "b@x.edu"⟩

/-!
## Loop invariants

Invariants of the three main loops, preserved by every iteration; `P` is the
set of email dedup keys loaded from the prior output file, `K` the set of
person keys loaded from it.
-/

/-- Invariant of the Google main loop. -/
structure GInv (ud : String → String) (P : List String)
    (K : List (String × String)) (s : GoogleV.GState) : Prop where
  probes_nodup : (s.probes.map GoogleV.gKey).Nodup
  probes_seen : ∀ p ∈ s.probes, GoogleV.gKey p ∈ s.seen
  written_sub : (s.written.map GoogleV.gKey).Sublist (s.probes.map GoogleV.gKey)
  valid_P : ∀ e ∈ P, e ∈ s.valid
  assigned_K : ∀ k ∈ K, k ∈ s.assigned
  written_pk_nodup : (s.written.map (GoogleV.npkRow ud)).Nodup
  written_assigned : ∀ w ∈ s.written, GoogleV.npkRow ud w ∈ s.assigned
  probes_not_P : ∀ p ∈ s.probes, GoogleV.gKey p ∉ P
  probes_not_K : ∀ p ∈ s.probes, GoogleV.npkRow ud p ∉ K
  written_not_K : ∀ w ∈ s.written, GoogleV.npkRow ud w ∉ K

/-- Invariant of the Microsoft main loop. -/
structure MsInv (P : List String) (s : Colgate.MsState) : Prop where
  probes_nodup : (s.probes.map Colgate.msKey).Nodup
  probes_seen : ∀ p ∈ s.probes, Colgate.msKey p ∈ s.seen
  written_sub : (s.written.map Colgate.msKey).Sublist (s.probes.map Colgate.msKey)
  valid_P : ∀ e ∈ P, e ∈ s.valid
  probes_not_P : ∀ p ∈ s.probes, Colgate.msKey p ∉ P

/-- Invariant of the Pepperdine main loop. -/
structure PInv (s : Pepp.PState) : Prop where
  probes_nodup : (s.probes.map Pepp.pKey).Nodup
  probes_seen : ∀ p ∈ s.probes, Pepp.pKey p ∈ s.seen
  written_sub : (s.written.map Pepp.pKey).Sublist (s.probes.map Pepp.pKey)

/-!
## Helper lemmas
-/

theorem at_password_step_eq (p : Colgate.MsPage) :
    Colgate.at_password_step p = p.pw_visible := by
  unfold Colgate.at_password_step
  cases p.pw_visible <;> simp

theorem g_step_inv {ud : String → String} {oracle : String → Option Bool}
    {P : List String} {K : List (String × String)} {s : GoogleV.GState}
    {row : GoogleV.GRow} (h : GInv ud P K s) :
    GInv ud P K (GoogleV.g_step ud oracle s row) := by
  simp only [GoogleV.g_step]
  split
  · exact h
  · split
    · exact h
    · next hskip hpk =>
      push_neg at hskip
      obtain ⟨hne, hnseen, hnvalid⟩ := hskip
      have hkey : GoogleV.gKey row = pyStrip row.email := rfl
      have hnotinprobes : GoogleV.gKey row ∉ s.probes.map GoogleV.gKey := by
        intro hmem
        obtain ⟨p, hp, hpe⟩ := List.mem_map.1 hmem
        exact hnseen (hkey ▸ hpe ▸ h.probes_seen p hp)
      have hprobes_nodup : ((s.probes ++ [row]).map GoogleV.gKey).Nodup := by
        rw [List.map_append]
        refine h.probes_nodup.append (List.nodup_singleton _) ?_
        intro x hx hx'
        rw [List.map_singleton, List.mem_singleton] at hx'
        subst hx'
        exact hnotinprobes hx
      have hprobes_seen : ∀ p ∈ s.probes ++ [row],
          GoogleV.gKey p ∈ pyStrip row.email :: s.seen := by
        intro p hp
        rcases List.mem_append.1 hp with hl | hr
        · exact List.mem_cons_of_mem _ (h.probes_seen p hl)
        · rw [List.mem_singleton] at hr
          subst hr
          exact List.mem_cons_self _ _
      have hprobes_not_P : ∀ p ∈ s.probes ++ [row], GoogleV.gKey p ∉ P := by
        intro p hp
        rcases List.mem_append.1 hp with hl | hr
        · exact h.probes_not_P p hl
        · rw [List.mem_singleton] at hr
          subst hr
          intro hP
          exact hnvalid (hkey ▸ h.valid_P _ hP)
      have hpk' : GoogleV.npkRow ud row ∉ K := by
        intro hK
        exact hpk (h.assigned_K _ hK)
      have hprobes_not_K : ∀ p ∈ s.probes ++ [row], GoogleV.npkRow ud p ∉ K := by
        intro p hp
        rcases List.mem_append.1 hp with hl | hr
        · exact h.probes_not_K p hl
        · rw [List.mem_singleton] at hr
          subst hr
          exact hpk'
      split
      · -- verdict `some true`: row written, person key assigned
        refine ⟨hprobes_nodup, hprobes_seen, ?_, h.valid_P, ?_, ?_, ?_, hprobes_not_P,
          hprobes_not_K, ?_⟩
        · rw [List.map_append, List.map_append]
          exact h.written_sub.append (List.Sublist.refl _)
        · exact fun k hk => List.mem_cons_of_mem _ (h.assigned_K k hk)
        · rw [List.map_append]
          refine h.written_pk_nodup.append (List.nodup_singleton _) ?_
          intro x hx hx'
          rw [List.map_singleton, List.mem_singleton] at hx'
          subst hx'
          obtain ⟨w, hw, hwe⟩ := List.mem_map.1 hx
          have hmem := h.written_assigned w hw
          rw [hwe] at hmem
          exact hpk hmem
        · intro w hw
          rcases List.mem_append.1 hw with hl | hr
          · exact List.mem_cons_of_mem _ (h.written_assigned w hl)
          · rw [List.mem_singleton] at hr
            subst hr
            exact List.mem_cons_self _ _
        · intro w hw
          rcases List.mem_append.1 hw with hl | hr
          · exact h.written_not_K w hl
          · rw [List.mem_singleton] at hr
            subst hr
            exact hpk'
      · -- other verdicts: nothing written
        refine ⟨hprobes_nodup, hprobes_seen, ?_, h.valid_P, h.assigned_K,
          h.written_pk_nodup, h.written_assigned, hprobes_not_P, hprobes_not_K,
          h.written_not_K⟩
        rw [List.map_append]
        exact h.written_sub.trans (List.sublist_append_left _ _)

theorem gRunFrom_inv {ud : String → String} (oracle : String → Option Bool)
    {P : List String} {K : List (String × String)} :
    ∀ (rows : List GoogleV.GRow) (s : GoogleV.GState),
      GInv ud P K s → GInv ud P K (GoogleV.gRunFrom ud oracle s rows) := by
  intro rows
  induction rows with
  | nil => exact fun s h => h
  | cons r rs ih => exact fun s h => ih _ (g_step_inv h)

theorem gInit_inv (ud : String → String) (prior : List GoogleV.GRow) :
    GInv ud (prior.map GoogleV.gKey) (prior.map (GoogleV.npkRow ud))
      (GoogleV.gInit ud prior) := by
  refine ⟨List.nodup_nil, ?_, List.Sublist.refl _, ?_, ?_, List.nodup_nil, ?_, ?_, ?_, ?_⟩ <;>
    simp [GoogleV.gInit]

theorem g_step_assigned_mono {ud : String → String} {oracle : String → Option Bool}
    {s : GoogleV.GState} {row : GoogleV.GRow} {k : String × String}
    (hk : k ∈ s.assigned) : k ∈ (GoogleV.g_step ud oracle s row).assigned := by
  simp only [GoogleV.g_step]
  split
  · exact hk
  · split
    · exact hk
    · split
      · exact List.mem_cons_of_mem _ hk
      · exact hk

theorem g_step_probes_avoid {ud : String → String} {oracle : String → Option Bool}
    {s : GoogleV.GState} {row : GoogleV.GRow} {k : String × String}
    (hk : k ∈ s.assigned) :
    ∀ p ∈ (GoogleV.g_step ud oracle s row).probes,
      p ∈ s.probes ∨ GoogleV.npkRow ud p ≠ k := by
  simp only [GoogleV.g_step]
  split
  · exact fun p hp => Or.inl hp
  · split
    · exact fun p hp => Or.inl hp
    · next hskip hpk =>
      have key : ∀ p ∈ s.probes ++ [row], p ∈ s.probes ∨ GoogleV.npkRow ud p ≠ k := by
        intro p hp
        rcases List.mem_append.1 hp with hl | hr
        · exact Or.inl hl
        · rw [List.mem_singleton] at hr
          subst hr
          right
          intro he
          rw [← he] at hk
          exact hpk hk
      split
      · exact key
      · exact key

theorem gRunFrom_probes_avoid {ud : String → String} {oracle : String → Option Bool}
    {k : String × String} :
    ∀ (rows : List GoogleV.GRow) (s : GoogleV.GState), k ∈ s.assigned →
      ∀ p ∈ (GoogleV.gRunFrom ud oracle s rows).probes,
        p ∈ s.probes ∨ GoogleV.npkRow ud p ≠ k := by
  intro rows
  induction rows with
  | nil => exact fun s _ p hp => Or.inl hp
  | cons r rs ih =>
    intro s hk p hp
    rcases ih _ (g_step_assigned_mono hk) p hp with hl | hr
    · exact g_step_probes_avoid hk p hl
    · exact Or.inr hr

theorem ms_step_inv {oracle : String → Option Bool} {P : List String}
    {s : Colgate.MsState} {row : Colgate.MsRow} (h : MsInv P s) :
    MsInv P (Colgate.ms_step oracle s row) := by
  simp only [Colgate.ms_step]
  split
  · exact h
  · split
    · exact h
    · next hne hskip =>
      push_neg at hskip
      obtain ⟨hnseen, hnvalid⟩ := hskip
      have hkey : Colgate.msKey row = pyLower (pyStrip row.email) := rfl
      have hnotinprobes : Colgate.msKey row ∉ s.probes.map Colgate.msKey := by
        intro hmem
        obtain ⟨p, hp, hpe⟩ := List.mem_map.1 hmem
        exact hnseen (hkey ▸ hpe ▸ h.probes_seen p hp)
      have hprobes_nodup : ((s.probes ++ [row]).map Colgate.msKey).Nodup := by
        rw [List.map_append]
        refine h.probes_nodup.append (List.nodup_singleton _) ?_
        intro x hx hx'
        rw [List.map_singleton, List.mem_singleton] at hx'
        subst hx'
        exact hnotinprobes hx
      have hprobes_seen : ∀ p ∈ s.probes ++ [row],
          Colgate.msKey p ∈ pyLower (pyStrip row.email) :: s.seen := by
        intro p hp
        rcases List.mem_append.1 hp with hl | hr
        · exact List.mem_cons_of_mem _ (h.probes_seen p hl)
        · rw [List.mem_singleton] at hr
          subst hr
          exact List.mem_cons_self _ _
      have hprobes_not_P : ∀ p ∈ s.probes ++ [row], Colgate.msKey p ∉ P := by
        intro p hp
        rcases List.mem_append.1 hp with hl | hr
        · exact h.probes_not_P p hl
        · rw [List.mem_singleton] at hr
          subst hr
          intro hP
          exact hnvalid (hkey ▸ h.valid_P _ hP)
      split
      · -- verdict `some true`
        refine ⟨hprobes_nodup, hprobes_seen, ?_, ?_, hprobes_not_P⟩
        · rw [List.map_append, List.map_append]
          exact h.written_sub.append (List.Sublist.refl _)
        · exact fun e he => List.mem_cons_of_mem _ (h.valid_P e he)
      · -- other verdicts
        refine ⟨hprobes_nodup, hprobes_seen, ?_, h.valid_P, hprobes_not_P⟩
        rw [List.map_append]
        exact h.written_sub.trans (List.sublist_append_left _ _)

theorem msRunFrom_inv (oracle : String → Option Bool) {P : List String} :
    ∀ (rows : List Colgate.MsRow) (s : Colgate.MsState),
      MsInv P s → MsInv P (Colgate.msRunFrom oracle s rows) := by
  intro rows
  induction rows with
  | nil => exact fun s h => h
  | cons r rs ih => exact fun s h => ih _ (ms_step_inv h)

theorem msInit_inv (prior : List Colgate.MsRow) :
    MsInv ((prior.map Colgate.msKey).filter (fun e => e != ""))
      (Colgate.msInit prior) := by
  refine ⟨List.nodup_nil, ?_, List.Sublist.refl _, ?_, ?_⟩ <;> simp [Colgate.msInit]

theorem p_step_inv {oracle : String → Option Bool} {limit : Nat}
    {s : Pepp.PState} {row : Colgate.MsRow} (h : PInv s) :
    PInv (Pepp.p_step oracle limit s row) := by
  simp only [Pepp.p_step]
  split
  · exact h
  · split
    · exact h
    · next hlim hskip =>
      push_neg at hskip
      obtain ⟨hne, hnseen⟩ := hskip
      have hkey : Pepp.pKey row = pyStrip row.email := rfl
      have hnotinprobes : Pepp.pKey row ∉ s.probes.map Pepp.pKey := by
        intro hmem
        obtain ⟨p, hp, hpe⟩ := List.mem_map.1 hmem
        exact hnseen (hkey ▸ hpe ▸ h.probes_seen p hp)
      have hprobes_nodup : ((s.probes ++ [row]).map Pepp.pKey).Nodup := by
        rw [List.map_append]
        refine h.probes_nodup.append (List.nodup_singleton _) ?_
        intro x hx hx'
        rw [List.map_singleton, List.mem_singleton] at hx'
        subst hx'
        exact hnotinprobes hx
      have hprobes_seen : ∀ p ∈ s.probes ++ [row],
          Pepp.pKey p ∈ pyStrip row.email :: s.seen := by
        intro p hp
        rcases List.mem_append.1 hp with hl | hr
        · exact List.mem_cons_of_mem _ (h.probes_seen p hl)
        · rw [List.mem_singleton] at hr
          subst hr
          exact List.mem_cons_self _ _
      split
      · refine ⟨hprobes_nodup, hprobes_seen, ?_⟩
        rw [List.map_append, List.map_append]
        exact h.written_sub.append (List.Sublist.refl _)
      · refine ⟨hprobes_nodup, hprobes_seen, ?_⟩
        rw [List.map_append]
        exact h.written_sub.trans (List.sublist_append_left _ _)

theorem pRun_inv (oracle : String → Option Bool) (limit : Nat)
    (rows : List Colgate.MsRow) : PInv (Pepp.pRun oracle limit rows) := by
  have base : PInv Pepp.pInit := ⟨List.nodup_nil, by simp [Pepp.pInit], List.Sublist.refl _⟩
  rw [Pepp.pRun]
  generalize Pepp.pInit = s at base ⊢
  induction rows generalizing s with
  | nil => exact base
  | cons r rs ih => exact ih _ (p_step_inv base)

theorem ms_step_written {oracle : String → Option Bool} {s : Colgate.MsState}
    {row : Colgate.MsRow} (h : oracle (pyStrip row.email) ≠ some true) :
    (Colgate.ms_step oracle s row).written = s.written := by
  simp only [Colgate.ms_step]
  split
  · rfl
  · split
    · rfl
    · cases ho : oracle (pyStrip row.email) with
      | none => simp [ho]
      | some b =>
        cases b
        · simp [ho]
        · exact absurd ho h

theorem g_step_written {ud : String → String} {oracle : String → Option Bool}
    {s : GoogleV.GState} {row : GoogleV.GRow}
    (h : oracle (pyStrip row.email) ≠ some true) :
    (GoogleV.g_step ud oracle s row).written = s.written := by
  simp only [GoogleV.g_step]
  split
  · rfl
  · split
    · rfl
    · cases ho : oracle (pyStrip row.email) with
      | none => simp [ho]
      | some b =>
        cases b
        · simp [ho]
        · exact absurd ho h

/-!
## Claim theorems
-/

/-- C1: for every probe in which, within the bounded post-submission wait,
neither a password-entry control becomes visible nor a known error string
appears, the classifier's verdict is ambiguous (`none`, hence never the valid
verdict `some true`), and the main loop writes no row to the output file for
that candidate — stated for the Microsoft classifier and loop and for the
Google probe and loop. -/
theorem claim1_no_signal_ambiguous_no_write :
    (∀ p : Colgate.MsPage, Colgate.at_password_step p = false →
      (∀ h ∈ Colgate.invalid_hints,
        strContains (pyLower (Colgate.find_username_error_text p)) h = false) →
      Colgate.classify_after_submit p = none)
    ∧ (∀ pr : GoogleV.GProbe,
      GoogleV.at_password_step pr.p1 = false →
      GoogleV.at_password_step pr.p2 = false →
      GoogleV.detect_invalid_by_message pr.p1 = false →
      GoogleV.detect_invalid_by_message pr.p2 = false →
      GoogleV.validate_email_google pr = none)
    ∧ (∀ (oracle : String → Option Bool) (s : Colgate.MsState) (row : Colgate.MsRow),
        oracle (pyStrip row.email) = none →
        (Colgate.ms_step oracle s row).written = s.written)
    ∧ (∀ (ud : String → String) (oracle : String → Option Bool)
        (s : GoogleV.GState) (row : GoogleV.GRow),
        oracle (pyStrip row.email) = none →
        (GoogleV.g_step ud oracle s row).written = s.written) := by
  refine ⟨?_, ?_, ?_, ?_⟩
  · intro p hpw herr
    have hany : (Colgate.invalid_hints.any fun h =>
        strContains (pyLower (Colgate.find_username_error_text p)) h) = false := by
      rw [List.any_eq_false]
      intro x hx
      simp [herr x hx]
    simp [Colgate.classify_after_submit, hany, hpw]
  · intro pr h1 h2 h3 h4
    cases hn : pr.nav_ok <;> cases hi : pr.input_found <;>
      cases hs1 : GoogleV.is_saml_flow pr.p1 <;>
      cases hs2 : GoogleV.is_saml_flow pr.p2 <;>
      simp [GoogleV.validate_email_google, hn, hi, hs1, hs2, h1, h2, h3, h4]
  · exact fun oracle s row h => ms_step_written (by simp [h])
  · exact fun ud oracle s row h => g_step_written (by simp [h])

/-- C1 witness: the concrete no-signal page and probe classify as unknown and
leave the output untouched. -/
theorem claim1_witness :
    Colgate.classify_after_submit msPageBlank = none
    ∧ GoogleV.validate_email_google gProbeAmbig = none
    ∧ (Colgate.ms_step oracleNone (Colgate.msInit []) pRowAnn).written = []
    ∧ (GoogleV.g_step id oracleNone (GoogleV.gInit id []) gRowUpper).written = [] :=
  ⟨claim1_no_signal_ambiguous_no_write.1 msPageBlank (by decide) (by decide),
   claim1_no_signal_ambiguous_no_write.2.1 gProbeAmbig (by decide) (by decide)
     (by decide) (by decide),
   claim1_no_signal_ambiguous_no_write.2.2.1 oracleNone (Colgate.msInit []) pRowAnn rfl,
   claim1_no_signal_ambiguous_no_write.2.2.2 id oracleNone (GoogleV.gInit id []) gRowUpper rfl⟩

/-- C5: in the Microsoft validator, a post-submission page state with a
visible password input and no error banner text classifies as valid
(`some true`), never as ambiguous. -/
theorem claim5_password_step_is_valid :
    ∀ p : Colgate.MsPage, Colgate.at_password_step p = true →
      Colgate.find_username_error_text p = "" →
      Colgate.classify_after_submit p = some true := by
  intro p hpw herr
  have hany : (Colgate.invalid_hints.any fun h =>
      strContains (pyLower (Colgate.find_username_error_text p)) h) = false := by
    rw [herr]
    decide
  simp [Colgate.classify_after_submit, hany, hpw]

/-- C5 witness at the concrete password-step page. -/
theorem claim5_witness : Colgate.classify_after_submit msPagePw = some true :=
  claim5_password_step_is_valid msPagePw (by decide) (by decide)

/-- C6: a post-submission page state containing a known account-not-found
string and no password input classifies as invalid (`some false`) in both the
Microsoft and the Google validator, and an invalid verdict leaves the output
file unchanged for that candidate.  (For the Google probe the state is
additionally assumed not to be a federated SAML redirect, which the code
checks first and which yields the unknown verdict.) -/
theorem claim6_invalid_message_rejected_no_write :
    (∀ p : Colgate.MsPage,
      (∃ h ∈ Colgate.invalid_hints,
        strContains (pyLower (Colgate.find_username_error_text p)) h = true) →
      Colgate.at_password_step p = false →
      Colgate.classify_after_submit p = some false)
    ∧ (∀ pr : GoogleV.GProbe, pr.nav_ok = true → pr.input_found = true →
      GoogleV.is_saml_flow pr.p1 = false →
      GoogleV.detect_invalid_by_message pr.p1 = true →
      GoogleV.at_password_step pr.p1 = false →
      GoogleV.validate_email_google pr = some false)
    ∧ (∀ (oracle : String → Option Bool) (s : Colgate.MsState) (row : Colgate.MsRow),
        oracle (pyStrip row.email) = some false →
        (Colgate.ms_step oracle s row).written = s.written)
    ∧ (∀ (ud : String → String) (oracle : String → Option Bool)
        (s : GoogleV.GState) (row : GoogleV.GRow),
        oracle (pyStrip row.email) = some false →
        (GoogleV.g_step ud oracle s row).written = s.written) := by
  refine ⟨?_, ?_, ?_, ?_⟩
  · intro p hex _
    have hany : (Colgate.invalid_hints.any fun h =>
        strContains (pyLower (Colgate.find_username_error_text p)) h) = true := by
      obtain ⟨x, hx, hxc⟩ := hex
      exact List.any_eq_true.2 ⟨x, hx, hxc⟩
    simp [Colgate.classify_after_submit, hany]
  · intro pr h1 h2 h3 h4 _
    simp [GoogleV.validate_email_google, h1, h2, h3, h4]
  · exact fun oracle s row h => ms_step_written (by simp [h])
  · exact fun ud oracle s row h => g_step_written (by simp [h])

/-- C6 witness at the concrete error pages. -/
theorem claim6_witness :
    Colgate.classify_after_submit msPageErr = some false
    ∧ GoogleV.validate_email_google gProbeInvalid = some false
    ∧ (Colgate.ms_step oracleFalse (Colgate.msInit []) pRowAnn).written = []
    ∧ (GoogleV.g_step id oracleFalse (GoogleV.gInit id []) gRowUpper).written = [] :=
  ⟨claim6_invalid_message_rejected_no_write.1 msPageErr
     ⟨"that microsoft account doesn\x27t exist", by decide, by decide⟩ (by decide),
   claim6_invalid_message_rejected_no_write.2.1 gProbeInvalid (by decide) (by decide)
     (by decide) (by decide) (by decide),
   claim6_invalid_message_rejected_no_write.2.2.1 oracleFalse (Colgate.msInit []) pRowAnn rfl,
   claim6_invalid_message_rejected_no_write.2.2.2 id oracleFalse (GoogleV.gInit id [])
     gRowUpper rfl⟩

/-- C10: the invalid-account-message check takes precedence over the
password-step check in both validators: when a known account-not-found
message and a password field are both present, the verdict is invalid
(`some false`), never valid.  (Google probe: assuming the state is not a
federated SAML redirect, which is checked even earlier.) -/
theorem claim10_invalid_beats_password :
    (∀ p : Colgate.MsPage,
      (∃ h ∈ Colgate.invalid_hints,
        strContains (pyLower (Colgate.find_username_error_text p)) h = true) →
      Colgate.at_password_step p = true →
      Colgate.classify_after_submit p = some false)
    ∧ (∀ pr : GoogleV.GProbe, pr.nav_ok = true → pr.input_found = true →
      GoogleV.is_saml_flow pr.p1 = false →
      GoogleV.detect_invalid_by_message pr.p1 = true →
      GoogleV.at_password_step pr.p1 = true →
      GoogleV.validate_email_google pr = some false) := by
  constructor
  · intro p hex _
    have hany : (Colgate.invalid_hints.any fun h =>
        strContains (pyLower (Colgate.find_username_error_text p)) h) = true := by
      obtain ⟨x, hx, hxc⟩ := hex
      exact List.any_eq_true.2 ⟨x, hx, hxc⟩
    simp [Colgate.classify_after_submit, hany]
  · intro pr h1 h2 h3 h4 _
    simp [GoogleV.validate_email_google, h1, h2, h3, h4]

/-- C10 witness: pages showing the error and a password field at once. -/
theorem claim10_witness :
    Colgate.classify_after_submit msPageErrPw = some false
    ∧ GoogleV.validate_email_google gProbeInvalidPw = some false :=
  ⟨claim10_invalid_beats_password.1 msPageErrPw
     ⟨"that microsoft account doesn\x27t exist", by decide, by decide⟩ (by decide),
   claim10_invalid_beats_password.2 gProbeInvalidPw (by decide) (by decide)
     (by decide) (by decide) (by decide)⟩

/-- C4: in the Google validator a valid verdict never comes from merely
reaching the password step: every `some true` verdict requires that, after
the deliberately wrong password was submitted, the landed page shows a
"wrong password / try again"-type signal; after the submission the verdict is
valid exactly on that signal, invalid when an account-not-found message
appears instead, and unknown otherwise (including a timeout locating the
password input). -/
theorem claim4_wrong_password_confirmation :
    (∀ pr : GoogleV.GProbe, GoogleV.validate_email_google pr = some true →
      ∃ p, pr.pw_outcome = GoogleV.PwOutcome.landed p
        ∧ GoogleV.wrong_password_hint p = true)
    ∧ (∀ p : GoogleV.GPage, GoogleV.wrong_password_hint p = true →
      GoogleV.submit_wrong_password_and_check (GoogleV.PwOutcome.landed p) = some true)
    ∧ (∀ p : GoogleV.GPage, GoogleV.wrong_password_hint p = false →
      GoogleV.detect_invalid_by_message p = true →
      GoogleV.submit_wrong_password_and_check (GoogleV.PwOutcome.landed p) = some false)
    ∧ (∀ p : GoogleV.GPage, GoogleV.wrong_password_hint p = false →
      GoogleV.detect_invalid_by_message p = false →
      GoogleV.submit_wrong_password_and_check (GoogleV.PwOutcome.landed p) = none)
    ∧ GoogleV.submit_wrong_password_and_check GoogleV.PwOutcome.timeout = none := by
  refine ⟨?_, ?_, ?_, ?_, rfl⟩
  · intro pr htrue
    have hsub : GoogleV.submit_wrong_password_and_check pr.pw_outcome = some true := by
      unfold GoogleV.validate_email_google at htrue
      split at htrue
      · exact absurd htrue (by simp)
      split at htrue
      · exact absurd htrue (by simp)
      split at htrue
      · exact absurd htrue (by simp)
      split at htrue
      · exact absurd htrue (by simp)
      split at htrue
      · exact htrue
      split at htrue
      · exact absurd htrue (by simp)
      split at htrue
      · exact absurd htrue (by simp)
      split at htrue
      · exact htrue
      · exact absurd htrue (by simp)
    cases hpw : pr.pw_outcome with
    | timeout =>
      rw [hpw] at hsub
      exact absurd hsub (by simp [GoogleV.submit_wrong_password_and_check])
    | landed p =>
      rw [hpw] at hsub
      refine ⟨p, rfl, ?_⟩
      simp only [GoogleV.submit_wrong_password_and_check] at hsub
      split at hsub
      · assumption
      · split at hsub
        · exact absurd hsub (by simp)
        · exact absurd hsub (by simp)
  · intro p hhint
    simp [GoogleV.submit_wrong_password_and_check, hhint]
  · intro p h1 h2
    simp [GoogleV.submit_wrong_password_and_check, h1, h2]
  · intro p h1 h2
    simp [GoogleV.submit_wrong_password_and_check, h1, h2]

/-- C4 witness at the concrete pages: a run confirmed by the wrong-password
signal, a rejection, and a no-signal page. -/
theorem claim4_witness :
    (∃ p, gProbeValid.pw_outcome = GoogleV.PwOutcome.landed p
      ∧ GoogleV.wrong_password_hint p = true)
    ∧ GoogleV.submit_wrong_password_and_check (GoogleV.PwOutcome.landed gPageWrongPw) = some true
    ∧ GoogleV.submit_wrong_password_and_check (GoogleV.PwOutcome.landed gPageInvalid) = some false
    ∧ GoogleV.submit_wrong_password_and_check (GoogleV.PwOutcome.landed gPageBlank) = none :=
  ⟨claim4_wrong_password_confirmation.1 gProbeValid (by decide),
   claim4_wrong_password_confirmation.2.1 gPageWrongPw (by decide),
   claim4_wrong_password_confirmation.2.2.1 gPageInvalid (by decide) (by decide),
   claim4_wrong_password_confirmation.2.2.2.1 gPageBlank (by decide) (by decide)⟩

/-- C3 fails as stated: not every exception raised while interacting with
page elements is caught — the `try` around the field interaction of
`enter_email_and_submit` catches `TimeoutException` only, so a probe in which
the per-character typing raises a `WebDriverException` propagates the
exception out of the probe (aborting the batch) instead of yielding the
unknown verdict. -/
theorem claim3_counterexample :
    Colgate.enter_email_and_submit msProbeRaises = Except.error Colgate.Exc.webdriver
    ∧ ∀ v : Option Bool, Colgate.enter_email_and_submit msProbeRaises ≠ Except.ok v := by
  constructor
  · rfl
  · intro v h
    rw [show Colgate.enter_email_and_submit msProbeRaises
        = Except.error Colgate.Exc.webdriver from rfl] at h
    exact Except.noConfusion h

/-- C3 amended: a `TimeoutException` raised anywhere in the field interaction
is caught and yields the unknown verdict, and a probe whose interactions
raise nothing but timeouts never lets an exception escape; (only) a
non-timeout exception during the field interaction propagates. -/
theorem claim3_amended_timeout_swallowed :
    ∀ pr : Colgate.MsProbe,
      (Colgate.interaction_raises pr = some Colgate.Exc.timeout →
        Colgate.enter_email_and_submit pr = Except.ok none)
      ∧ ((∀ e ∈ [pr.clear_res, pr.type_res, pr.enter_res].filterMap id,
          e = Colgate.Exc.timeout) →
        ∃ v, Colgate.enter_email_and_submit pr = Except.ok v) := by
  intro pr
  constructor
  · intro ht
    unfold Colgate.enter_email_and_submit
    split
    · rfl
    split
    · rfl
    · rw [ht]
  · intro hall
    unfold Colgate.enter_email_and_submit
    split
    · exact ⟨none, rfl⟩
    split
    · exact ⟨none, rfl⟩
    · cases hr : Colgate.interaction_raises pr with
      | none => exact ⟨_, rfl⟩
      | some e =>
        have he : e = Colgate.Exc.timeout := by
          refine hall e (List.mem_of_mem_head? ?_)
          exact hr
        subst he
        exact ⟨none, rfl⟩

/-- C3 amended witness: the probe whose `clear()` times out returns the
unknown verdict without raising. -/
theorem claim3_amended_witness :
    Colgate.enter_email_and_submit msProbeTimeout = Except.ok none
    ∧ ∃ v, Colgate.enter_email_and_submit msProbeTimeout = Except.ok v :=
  ⟨(claim3_amended_timeout_swallowed msProbeTimeout).1 rfl,
   (claim3_amended_timeout_swallowed msProbeTimeout).2 (by decide)⟩

theorem append_writer_props (f : List (List String)) (hdr row : List String) :
    ((f ++ (if f = [] then [hdr] else []) ++ [row]).take f.length = f)
    ∧ (f ++ (if f = [] then [hdr] else []) ++ [row]).getLast? = some row
    ∧ (f ++ (if f = [] then [hdr] else []) ++ [row]).length
        = f.length + (if f = [] then 2 else 1)
    ∧ (f = [] → (f ++ (if f = [] then [hdr] else []) ++ [row]).head? = some hdr) := by
  by_cases hf : f = []
  · subst hf
    simp
  · refine ⟨?_, ?_, ?_, fun h => absurd h hf⟩
    · rw [if_neg hf, List.append_nil]
      exact List.take_left f [row]
    · rw [if_neg hf, List.append_nil]
      exact List.getLast?_concat f
    · simp [hf]

/-- C7: every invocation of the result sink (`write_valid`, in each of the
three validators) appends exactly the one data row of the confirmed
candidate at the end of the file, writes the header row iff the file is empty
at the moment of the write (two rows appended then, one otherwise), and
leaves every previously written row unchanged (the old file is a prefix of
the new one) — for any file contents, hence for any sequence of invocations
within and across runs. -/
theorem claim7_write_valid_append_only :
    (∀ (f : List (List String)) (r : Colgate.MsRow),
      (Colgate.write_valid f r).take f.length = f
      ∧ (Colgate.write_valid f r).getLast? = some [r.full_name, r.email]
      ∧ (Colgate.write_valid f r).length = f.length + (if f = [] then 2 else 1)
      ∧ (f = [] → (Colgate.write_valid f r).head? = some Colgate.hdr2))
    ∧ (∀ (f : List (List String)) (r : GoogleV.GRow),
      (GoogleV.write_valid f r).take f.length = f
      ∧ (GoogleV.write_valid f r).getLast? = some [r.full_name, r.username, r.email]
      ∧ (GoogleV.write_valid f r).length = f.length + (if f = [] then 2 else 1)
      ∧ (f = [] → (GoogleV.write_valid f r).head? = some GoogleV.hdr3))
    ∧ (∀ (f : List (List String)) (r : Colgate.MsRow),
      (Pepp.write_valid f r).take f.length = f
      ∧ (Pepp.write_valid f r).getLast? = some [r.full_name, r.email]
      ∧ (Pepp.write_valid f r).length = f.length + (if f = [] then 2 else 1)
      ∧ (f = [] → (Pepp.write_valid f r).head? = some Colgate.hdr2)) :=
  ⟨fun f r => append_writer_props f Colgate.hdr2 [r.full_name, r.email],
   fun f r => append_writer_props f GoogleV.hdr3 [r.full_name, r.username, r.email],
   fun f r => append_writer_props f Colgate.hdr2 [r.full_name, r.email]⟩

/-- C7 witness: writes into an empty and into a non-empty file. -/
theorem claim7_witness :
    (Colgate.write_valid [] pRowAnn).head? = some Colgate.hdr2
    ∧ (GoogleV.write_valid [] gRowUpper).head? = some GoogleV.hdr3
    ∧ (Pepp.write_valid [] pRowAnn).head? = some Colgate.hdr2
    ∧ (Colgate.write_valid [Colgate.hdr2] pRowAnn).take 1 = [Colgate.hdr2] :=
  ⟨(claim7_write_valid_append_only.1 [] pRowAnn).2.2.2 rfl,
   (claim7_write_valid_append_only.2.1 [] gRowUpper).2.2.2 rfl,
   (claim7_write_valid_append_only.2.2 [] pRowAnn).2.2.2 rfl,
   (claim7_write_valid_append_only.1 [Colgate.hdr2] pRowAnn).1⟩

/-- C8 fails as stated: a failure of the session relaunch is NOT retried — in
the restart block of the Google validator's loop `make_driver` is called
exactly once, so with spawn behaviour [fail, succeed] the code is fatal where
the claimed retry-once policy would succeed on the second attempt. -/
theorem claim8_counterexample :
    GoogleV.restart_block true [false, true] = Except.error ()
    ∧ GoogleV.restart_block_spec true [false, true] = Except.ok 2 :=
  ⟨rfl, rfl⟩

/-- C8 amended: the restart is due exactly when the configured threshold is
non-zero and divides the number of checks so far; the old session's quit
outcome is irrelevant (its failure is swallowed); the relaunch is attempted
exactly once — success restarts after consuming one spawn attempt, failure is
immediately fatal regardless of any further attempts (no retry). -/
theorem claim8_amended_restart_no_retry :
    (∀ n t : Nat, GoogleV.restart_due n t = true ↔ n ≠ 0 ∧ t % n = 0)
    ∧ (∀ (q : Bool) (rest : List Bool),
        GoogleV.restart_block q (true :: rest) = Except.ok 1)
    ∧ (∀ (q : Bool) (rest : List Bool),
        GoogleV.restart_block q (false :: rest) = Except.error ())
    ∧ (∀ (q : Bool) (sp : List Bool),
        GoogleV.restart_block q sp = GoogleV.restart_block true sp) := by
  refine ⟨?_, fun q rest => rfl, fun q rest => rfl, ?_⟩
  · intro n t
    simp [GoogleV.restart_due, Bool.and_eq_true, bne_iff_ne, beq_iff_eq]
  · intro q sp
    cases sp <;> rfl

/-- C8 amended witness: the 400th check with threshold 200 is due. -/
theorem claim8_amended_witness : GoogleV.restart_due 200 400 = true :=
  (claim8_amended_restart_no_retry.1 200 400).mpr (by decide)

/-- C2 fails as stated: (a) the Google validator's dedup sets are keyed by
the exact stripped email, NOT lower-cased — two candidates whose emails
differ only in case are both probed and both written; (b) the Pepperdine
validator never loads the existing output file, so a resumed run probes an
email already present in the output and `write_valid` appends it again as a
duplicate row. -/
theorem claim2_counterexample :
    (¬ ((GoogleV.gRun id oracleTrue [] [gRowUpper, gRowLower]).probes.map
        (fun r => pyLower (pyStrip r.email))).Nodup)
    ∧ (GoogleV.gRun id oracleTrue [] [gRowUpper, gRowLower]).written
        = [gRowUpper, gRowLower]
    ∧ (Pepp.pRun oracleTrue 0 [pRowAnn]).probes = [pRowAnn]
    ∧ Pepp.write_valid (Pepp.write_valid [] pRowAnn) pRowAnn
        = [Colgate.hdr2, ["Ann", "a@x.edu"], ["Ann", "a@x.edu"]] := by
  refine ⟨by decide, by decide, by decide, by decide⟩

/-- C2 amended: within one run each validator probes and writes each email at
most once under its own dedup key — the trimmed, lower-cased email for the
Microsoft validator but the exact trimmed (case-sensitive) email for the
Google and Pepperdine validators; an email already present in the output file
is never reprobed in the Microsoft and Google validators, while the
Pepperdine validator does not load its prior output at all. -/
theorem claim2_amended_dedup :
    (∀ (ud : String → String) (oracle : String → Option Bool)
        (prior rows : List GoogleV.GRow),
      ((GoogleV.gRun ud oracle prior rows).probes.map GoogleV.gKey).Nodup
      ∧ ((GoogleV.gRun ud oracle prior rows).written.map GoogleV.gKey).Nodup
      ∧ ∀ r ∈ prior, ∀ p ∈ (GoogleV.gRun ud oracle prior rows).probes,
          GoogleV.gKey p ≠ GoogleV.gKey r)
    ∧ (∀ (oracle : String → Option Bool) (prior rows : List Colgate.MsRow),
      ((Colgate.msRun oracle prior rows).probes.map Colgate.msKey).Nodup
      ∧ ((Colgate.msRun oracle prior rows).written.map Colgate.msKey).Nodup
      ∧ ∀ r ∈ prior, Colgate.msKey r ≠ "" →
          ∀ p ∈ (Colgate.msRun oracle prior rows).probes,
            Colgate.msKey p ≠ Colgate.msKey r)
    ∧ (∀ (oracle : String → Option Bool) (limit : Nat) (rows : List Colgate.MsRow),
      ((Pepp.pRun oracle limit rows).probes.map Pepp.pKey).Nodup
      ∧ ((Pepp.pRun oracle limit rows).written.map Pepp.pKey).Nodup) := by
  refine ⟨?_, ?_, ?_⟩
  · intro ud oracle prior rows
    have hinv := gRunFrom_inv oracle rows _ (gInit_inv ud prior)
    refine ⟨hinv.probes_nodup, hinv.probes_nodup.sublist hinv.written_sub, ?_⟩
    intro r hr p hp heq
    exact hinv.probes_not_P p hp (heq ▸ List.mem_map_of_mem GoogleV.gKey hr)
  · intro oracle prior rows
    have hinv := msRunFrom_inv oracle rows _ (msInit_inv prior)
    refine ⟨hinv.probes_nodup, hinv.probes_nodup.sublist hinv.written_sub, ?_⟩
    intro r hr hne p hp heq
    refine hinv.probes_not_P p hp ?_
    rw [heq]
    refine List.mem_filter.2 ⟨List.mem_map_of_mem Colgate.msKey hr, ?_⟩
    simpa using hne
  · intro oracle limit rows
    have hinv := pRun_inv oracle limit rows
    exact ⟨hinv.probes_nodup, hinv.probes_nodup.sublist hinv.written_sub⟩

/-- C2 amended witness: a resumed Google run and a resumed Microsoft run
never reprobe the old row's key; concrete runs have duplicate-free probe
keys. -/
theorem claim2_amended_witness :
    ((GoogleV.gRun id oracleTrue [gRowOld] [gRowUpper]).probes.map GoogleV.gKey).Nodup
    ∧ GoogleV.gKey gRowUpper ≠ GoogleV.gKey gRowOld
    ∧ Colgate.msKey msRowNew ≠ Colgate.msKey msRowOld
    ∧ ((Pepp.pRun oracleTrue 0 [pRowAnn]).probes.map Pepp.pKey).Nodup :=
  ⟨(claim2_amended_dedup.1 id oracleTrue [gRowOld] [gRowUpper]).1,
   (claim2_amended_dedup.1 id oracleTrue [gRowOld] [gRowUpper]).2.2 gRowOld
     (by decide) gRowUpper (by decide),
   (claim2_amended_dedup.2.1 oracleTrue [msRowOld] [msRowNew]).2.2 msRowOld
     (by decide) (by decide) msRowNew (by decide),
   (claim2_amended_dedup.2.2 oracleTrue 0 [pRowAnn]).1⟩

/-- C9 fails as stated: `normalize_person_key` does not apply `unidecode` to
the username (only to the full name), so two candidates for the same person
whose usernames differ only by a diacritic have the same claimed
(fully-unidecoded) person key yet both are probed and both are written —
the person is credited with two confirmed addresses. -/
theorem claim9_counterexample :
    GoogleV.claim_person_key udAcute gRowJose1.full_name gRowJose1.username
      = GoogleV.claim_person_key udAcute gRowJose2.full_name gRowJose2.username
    ∧ (GoogleV.gRun udAcute oracleTrue [] [gRowJose1, gRowJose2]).written
        = [gRowJose1, gRowJose2]
    ∧ (GoogleV.gRun udAcute oracleTrue [] [gRowJose1, gRowJose2]).probes
        = [gRowJose1, gRowJose2] := by
  refine ⟨by decide, by decide, by decide⟩

/-- C9 amended: with the person key the code actually computes — `unidecode`d,
trimmed, lower-cased full name paired with the trimmed, lower-cased (NOT
`unidecode`d) username — each run credits a person key with at most one
written address; person keys loaded from the prior output are never probed
and never re-credited; and once a key is assigned (in particular right after
its row is written), no later candidate with that key is ever probed. -/
theorem claim9_amended_person_dedup :
    ∀ (ud : String → String) (oracle : String → Option Bool),
    (∀ (prior rows : List GoogleV.GRow),
      ((GoogleV.gRun ud oracle prior rows).written.map (GoogleV.npkRow ud)).Nodup
      ∧ (∀ w ∈ (GoogleV.gRun ud oracle prior rows).written,
          GoogleV.npkRow ud w ∈ (GoogleV.gRun ud oracle prior rows).assigned)
      ∧ (∀ r ∈ prior, ∀ w ∈ (GoogleV.gRun ud oracle prior rows).written,
          GoogleV.npkRow ud w ≠ GoogleV.npkRow ud r)
      ∧ (∀ r ∈ prior, ∀ p ∈ (GoogleV.gRun ud oracle prior rows).probes,
          GoogleV.npkRow ud p ≠ GoogleV.npkRow ud r))
    ∧ (∀ (s : GoogleV.GState) (rows : List GoogleV.GRow) (k : String × String),
        k ∈ s.assigned →
        ∀ p ∈ (GoogleV.gRunFrom ud oracle s rows).probes,
          p ∈ s.probes ∨ GoogleV.npkRow ud p ≠ k) := by
  intro ud oracle
  constructor
  · intro prior rows
    have hinv := gRunFrom_inv oracle rows _ (gInit_inv ud prior)
    refine ⟨hinv.written_pk_nodup, hinv.written_assigned, ?_, ?_⟩
    · intro r hr w hw heq
      exact hinv.written_not_K w hw (heq ▸ List.mem_map_of_mem (GoogleV.npkRow ud) hr)
    · intro r hr p hp heq
      exact hinv.probes_not_K p hp (heq ▸ List.mem_map_of_mem (GoogleV.npkRow ud) hr)
  · exact fun s rows k hk => gRunFrom_probes_avoid rows s hk

/-- C9 amended witness: a run resumed against a prior credit for `gRowJose1`
still probes `gRowJose2` (different code key), and the avoidance conclusion
holds for it concretely. -/
theorem claim9_amended_witness :
    ((GoogleV.gRun udAcute oracleTrue [] [gRowJose1, gRowJose2]).written.map
      (GoogleV.npkRow udAcute)).Nodup
    ∧ GoogleV.npkRow udAcute gRowJose2 ≠ GoogleV.npkRow udAcute gRowJose1
    ∧ (gRowJose2 ∈ (GoogleV.gInit udAcute [gRowJose1]).probes
        ∨ GoogleV.npkRow udAcute gRowJose2 ≠ GoogleV.npkRow udAcute gRowJose1) :=
  ⟨((claim9_amended_person_dedup udAcute oracleTrue).1 [] [gRowJose1, gRowJose2]).1,
   ((claim9_amended_person_dedup udAcute oracleTrue).1 [gRowJose1] [gRowJose2]).2.2.2
     gRowJose1 (by decide) gRowJose2 (by decide),
   (claim9_amended_person_dedup udAcute oracleTrue).2 (GoogleV.gInit udAcute [gRowJose1])
     [gRowJose2] (GoogleV.npkRow udAcute gRowJose1) (by decide) gRowJose2 (by decide)⟩
